import Mathlib

/-!
Verification development for the tokenization-model binding layer
(`src/ext/tokenizers/src/models.rs` of tokenizers-ruby).

The binding layer is embedded shallowly: Ruby hashes become association
lists, in-place mutation of a kwargs hash becomes explicit state passing
(functions return the final hash alongside their result), fallible Rust
functions returning `RbResult` become `Except RbErr`, and a Rust panic
(`unreachable!()`) becomes an explicit `PanicOr` outcome.

The underlying `tk` engine (the tokenizers crate: model structs, builder
`build` steps, vocabulary lookups, file parsers) is not part of this
repository's sources; every definition standing in for it carries a doc
comment starting with `Modelled from the spec:` and follows the
specification's words for the missing piece.
-/

set_option autoImplicit false

namespace TokenizersRuby

/-- A Ruby value as passed inside a keyword-arguments hash.  Only the value
shapes the binding layer ever converts (`try_convert` targets: unsigned
integers, floats, strings, booleans) plus `nil` are represented; floats are
carried as rationals since no claim computes with them. -/
inductive RbValue where
  | nil
  | nat (n : Nat)
  | float (q : ℚ)
  | str (s : String)
  | bool (b : Bool)
  deriving DecidableEq

/-- Errors surfaced by the binding layer: `argError` models
`Error::new(exception::arg_error(), msg)`, `typeError` a failed
`try_convert`, `buildError` an error from a variant builder's terminal
build step (mapped through `RbError::from`), and `formatError` a
file-parse failure. -/
inductive RbErr where
  | argError (msg : String)
  | typeError
  | buildError (msg : String)
  | formatError (msg : String)
  deriving DecidableEq

/-- Whether an `Except` result is a success. -/
def isOkE {ε α : Type} : Except ε α → Bool
  | .ok _ => true
  | .error _ => false

/-- A Ruby `Hash` with symbol keys, as an association list (Ruby hash keys
are unique; the embedding does not depend on uniqueness). -/
abbrev RHash := List (String × RbValue)

/-- Embedding of Ruby `Hash#delete`: returns the deleted value (`nil` when
the key is absent) together with the hash after deletion.  The in-place
mutation performed by `kwargs.delete(...)` in the source is made explicit
by returning the new hash. -/
def RHash.deleteKey (h : RHash) (k : String) : RbValue × RHash :=
  (((h.find? (fun p => p.1 == k)).map Prod.snd).getD RbValue.nil,
   h.filter (fun p => p.1 != k))

/-- Whether the hash contains the given key. -/
def RHash.hasKey (h : RHash) (k : String) : Bool :=
  h.any (fun p => p.1 == k)

/-- `try_convert` to an unsigned integer. -/
def RbValue.asNat : RbValue → Except RbErr Nat
  | .nat n => .ok n
  | _ => .error .typeError

/-- `try_convert` to a float. -/
def RbValue.asFloat : RbValue → Except RbErr ℚ
  | .float q => .ok q
  | _ => .error .typeError

/-- `try_convert` to a string. -/
def RbValue.asString : RbValue → Except RbErr String
  | .str s => .ok s
  | _ => .error .typeError

/-- `try_convert` to a boolean. -/
def RbValue.asBool : RbValue → Except RbErr Bool
  | .bool b => .ok b
  | _ => .error .typeError

/-- tk `Vocab` (`HashMap<String, u32>`) as an association list from token
to id. -/
abbrev Vocab := List (String × Nat)

/-- tk `Merges`: ordered list of token-pair merge rules (file order is
priority order). -/
abbrev Merges := List (String × String)

/-- The BPE variant's fields, per the spec's data model. -/
structure BPEModel where
  vocab : Vocab
  merges : Merges
  cache_capacity : Nat
  dropout : Option ℚ
  unk_token : Option String
  continuing_subword_prefix : Option String
  end_of_word_suffix : Option String
  fuse_unk : Bool
  deriving DecidableEq

/-- The Unigram variant's fields: a scored token list and an optional
unknown-token index into it. -/
structure UnigramModel where
  vocab : List (String × ℚ)
  unk_id : Option Nat
  deriving DecidableEq

/-- The WordLevel variant's fields. -/
structure WordLevelModel where
  vocab : Vocab
  unk_token : Option String
  deriving DecidableEq

/-- The WordPiece variant's fields. -/
structure WordPieceModel where
  vocab : Vocab
  unk_token : String
  max_input_chars_per_word : Nat
  continuing_subword_prefix : String
  deriving DecidableEq

/-- tk `ModelWrapper`: the closed tagged union holding exactly one live
variant. -/
inductive ModelWrapper where
  | BPE (m : BPEModel)
  | Unigram (m : UnigramModel)
  | WordLevel (m : WordLevelModel)
  | WordPiece (m : WordPieceModel)
  deriving DecidableEq

/-- `RbModel` wraps the model wrapper.  The `Arc<RwLock<...>>` shared
handle adds concurrency, not functional behaviour, so the embedding keeps
the wrapped value directly. -/
structure RbModel where
  model : ModelWrapper
  deriving DecidableEq

/-- Exact-match lookup of a token in a vocabulary snapshot. -/
def vocabLookup (v : Vocab) (t : String) : Option Nat :=
  (v.find? (fun p => p.1 == t)).map Prod.snd

/-- Exact-match inverse lookup of an id in a vocabulary snapshot. -/
def vocabRLookup (v : Vocab) (i : Nat) : Option String :=
  (v.find? (fun p => p.2 == i)).map Prod.fst

/-- Vocabulary snapshot of a Unigram model: the token at position `i` of
the scored list has id `i` (the spec: `unk_id` is an "index into that
sequence"). -/
def unigramVocabMap (l : List (String × ℚ)) : Vocab :=
  l.enum.map (fun p => (p.2.1, p.1))

/-- Modelled from the spec: the per-variant `get_vocab` of the tk models,
which are not under `src/` — "`get_vocab() -> mapping token->id` — full
snapshot". -/
def ModelWrapper.get_vocab : ModelWrapper → Vocab
  | .BPE m => m.vocab
  | .Unigram m => unigramVocabMap m.vocab
  | .WordLevel m => m.vocab
  | .WordPiece m => m.vocab

/-- Modelled from the spec: the per-variant `get_vocab_size` of the tk
models (not under `src/`) — the count of vocabulary entries held by the
active variant. -/
def ModelWrapper.get_vocab_size : ModelWrapper → Nat
  | .BPE m => m.vocab.length
  | .Unigram m => m.vocab.length
  | .WordLevel m => m.vocab.length
  | .WordPiece m => m.vocab.length

/-- Modelled from the spec: "`token_to_id(token) -> optional id` —
exact-match lookup; no fuzzy matching, no normalization" (tk impls not
under `src/`). -/
def ModelWrapper.token_to_id (w : ModelWrapper) (t : String) : Option Nat :=
  vocabLookup w.get_vocab t

/-- Modelled from the spec: "`id_to_token(id) -> optional token` —
exact-match inverse lookup" (tk impls not under `src/`). -/
def ModelWrapper.id_to_token (w : ModelWrapper) (i : Nat) : Option String :=
  vocabRLookup w.get_vocab i

/-- Embedding of `RbModel::token_to_id` (models.rs lines 34-36): delegates
to the wrapped model under the read lock. -/
def RbModel.token_to_id (m : RbModel) (t : String) : Option Nat :=
  m.model.token_to_id t

/-- Embedding of `RbModel::id_to_token` (models.rs lines 38-40). -/
def RbModel.id_to_token (m : RbModel) (i : Nat) : Option String :=
  m.model.id_to_token i

/-- Embedding of `RbModel::get_vocab` (models.rs lines 42-44). -/
def RbModel.get_vocab (m : RbModel) : Vocab :=
  m.model.get_vocab

/-- Embedding of `RbModel::get_vocab_size` (models.rs lines 46-48). -/
def RbModel.get_vocab_size (m : RbModel) : Nat :=
  m.model.get_vocab_size

/-- tk `BpeBuilder` configuration: every option unset until supplied. -/
structure BpeBuilder where
  vocab_and_merges : Option (Vocab × Merges) := none
  cache_capacity : Option Nat := none
  dropout : Option ℚ := none
  unk_token : Option String := none
  continuing_subword_prefix : Option String := none
  end_of_word_suffix : Option String := none
  fuse_unk : Option Bool := none
  deriving DecidableEq

/-- `BPE::builder()`. -/
def BPE.builder : BpeBuilder := {}

/-- tk builder setter `BpeBuilder::vocab_and_merges`. -/
def BpeBuilder.setVocabAndMerges (b : BpeBuilder) (vm : Vocab × Merges) : BpeBuilder :=
  { b with vocab_and_merges := some vm }

/-- tk builder setter `BpeBuilder::cache_capacity`. -/
def BpeBuilder.setCacheCapacity (b : BpeBuilder) (n : Nat) : BpeBuilder :=
  { b with cache_capacity := some n }

/-- tk builder setter `BpeBuilder::dropout`. -/
def BpeBuilder.setDropout (b : BpeBuilder) (q : ℚ) : BpeBuilder :=
  { b with dropout := some q }

/-- tk builder setter `BpeBuilder::unk_token`. -/
def BpeBuilder.setUnkToken (b : BpeBuilder) (s : String) : BpeBuilder :=
  { b with unk_token := some s }

/-- tk builder setter `BpeBuilder::continuing_subword_prefix`. -/
def BpeBuilder.setContinuingSubwordPre (b : BpeBuilder) (s : String) : BpeBuilder :=
  { b with continuing_subword_prefix := some s }

/-- tk builder setter `BpeBuilder::end_of_word_suffix`. -/
def BpeBuilder.setEndOfWordSuffix (b : BpeBuilder) (s : String) : BpeBuilder :=
  { b with end_of_word_suffix := some s }

/-- tk builder setter `BpeBuilder::fuse_unk`. -/
def BpeBuilder.setFuseUnk (b : BpeBuilder) (x : Bool) : BpeBuilder :=
  { b with fuse_unk := some x }

/-- Modelled from the spec: tk's `BpeBuilder::build` is not under `src/`.
The builder's terminal build step "either returns a fully validated,
ready-to-use instance or fails without producing a partial object"; the
spec names no in-memory build-time failure for BPE ("building with neither
succeeds as an empty model"), so build succeeds with the configured fields,
unset options taking the engine defaults. -/
def BpeBuilder.build (b : BpeBuilder) : Except RbErr RbModel :=
  .ok ⟨.BPE {
    vocab := (b.vocab_and_merges.map Prod.fst).getD []
    merges := (b.vocab_and_merges.map Prod.snd).getD []
    cache_capacity := b.cache_capacity.getD 10000
    dropout := b.dropout
    unk_token := b.unk_token
    continuing_subword_prefix := b.continuing_subword_prefix
    end_of_word_suffix := b.end_of_word_suffix
    fuse_unk := b.fuse_unk.getD false }⟩

/-- Embedding of the kwarg pattern recurring in `with_builder`
(models.rs lines 74-102 and 188-201):
`let value: Value = kwargs.delete(Symbol::new(key))?;
 if !value.is_nil() { builder = builder.set(value.try_convert()?); }`.
An absent or nil value leaves the builder unchanged; a present value must
convert, otherwise the `?` on `try_convert` propagates the error.  The
hash state after the delete is returned in either case. -/
def optStep {B β : Type} (b : B) (kwargs : RHash) (key : String)
    (conv : RbValue → Except RbErr β) (set : B → β → B) :
    Except (RbErr × RHash) (B × RHash) :=
  let r := kwargs.deleteKey key
  if r.1 = RbValue.nil then .ok (b, r.2)
  else
    match conv r.1 with
    | .ok x => .ok (set b x, r.2)
    | .error e => .error (e, r.2)

/-- Embedding of `RbBPE::with_builder` (models.rs lines 73-110): delete
each recognized option from the kwargs hash and configure the builder with
it; any key left over afterwards is an "unknown keyword" `ArgumentError`;
otherwise the builder is built.  The kwargs hash is mutated in place in the
source; the embedding threads it and returns its final state alongside the
result. -/
def RbBPE.with_builder (builder : BpeBuilder) (kwargs : RHash) :
    Except RbErr RbModel × RHash :=
  match optStep builder kwargs "cache_capacity" RbValue.asNat BpeBuilder.setCacheCapacity with
  | .error (e, k) => (.error e, k)
  | .ok (b, k) =>
    match optStep b k "dropout" RbValue.asFloat BpeBuilder.setDropout with
    | .error (e, k) => (.error e, k)
    | .ok (b, k) =>
      match optStep b k "unk_token" RbValue.asString BpeBuilder.setUnkToken with
      | .error (e, k) => (.error e, k)
      | .ok (b, k) =>
        match optStep b k "continuing_subword_prefix" RbValue.asString BpeBuilder.setContinuingSubwordPre with
        | .error (e, k) => (.error e, k)
        | .ok (b, k) =>
          match optStep b k "end_of_word_suffix" RbValue.asString BpeBuilder.setEndOfWordSuffix with
          | .error (e, k) => (.error e, k)
          | .ok (b, k) =>
            match optStep b k "fuse_unk" RbValue.asBool BpeBuilder.setFuseUnk with
            | .error (e, k) => (.error e, k)
            | .ok (b, k) =>
              if !k.isEmpty then
                (.error (.argError "unknown keyword"), k)
              else
                (b.build, k)

/-- Embedding of `RbBPE::new` (models.rs lines 112-118): a vocab/merges
pair is installed on the builder only when both are supplied; in every
other case the builder is left untouched. -/
def RbBPE.new (vocab : Option Vocab) (merges : Option Merges) (kwargs : RHash) :
    Except RbErr RbModel × RHash :=
  let builder := BPE.builder
  let builder :=
    match vocab, merges with
    | some v, some m => builder.setVocabAndMerges (v, m)
    | _, _ => builder
  RbBPE.with_builder builder kwargs

/-- Embedding of `RbBPE::from_file` (models.rs lines 120-124).  tk's
`BPE::read_file` is not under `src/`, so the parser is taken as a
parameter over the two files' contents; every statement about this
definition holds for any parser.  A parse failure propagates via `?`
before `new` is reached. -/
def RbBPE.from_file (read_file : String → String → Except RbErr (Vocab × Merges))
    (vocab merges : String) (kwargs : RHash) : Except RbErr RbModel × RHash :=
  match read_file vocab merges with
  | .error e => (.error e, kwargs)
  | .ok vm => RbBPE.new (some vm.1) (some vm.2) kwargs

/-- Outcome of a call that may panic: Rust's `unreachable!()` aborts the
call instead of returning a value. -/
inductive PanicOr (α : Type) where
  | panicked (msg : String)
  | returned (a : α)
  deriving DecidableEq

/-- Embedding of the `getter!` macro instantiated at
`RbModel::bpe_unk_token` (models.rs lines 127-142): on the BPE variant it
returns `unk_token.clone()`; on every other variant the `if let` falls
through to `unreachable!()`. -/
def RbModel.bpe_unk_token (m : RbModel) : PanicOr (Option String) :=
  match m.model with
  | .BPE mo => .returned mo.unk_token
  | _ => .panicked "internal error: entered unreachable code"

/-- Modelled from the spec: tk's `Unigram::from` (not under `src/`) —
"`unk_id`, if present, must be a valid index into `vocab`; an out-of-range
id is a construction-time error, not deferred to tokenize time".  Lean
reserves `from`, hence the name. -/
def Unigram.fromVocab (vocab : List (String × ℚ)) (unk_id : Option Nat) :
    Except RbErr UnigramModel :=
  match unk_id with
  | none => .ok { vocab := vocab, unk_id := none }
  | some i =>
    if i < vocab.length then .ok { vocab := vocab, unk_id := some i }
    else .error (.buildError "unk_id is not a valid index in vocab")

/-- Modelled from the spec: `Unigram::default()` — the "empty/default
model" obtained when neither `vocab` nor `unk_id` is supplied. -/
def Unigram.default : UnigramModel := { vocab := [], unk_id := none }

/-- Embedding of `RbUnigram::new` (models.rs lines 147-156): the three
match arms mirror the source's
`(Some(vocab), unk_id) / (None, None) / _` match. -/
def RbUnigram.new (vocab : Option (List (String × ℚ))) (unk_id : Option Nat) :
    Except RbErr RbModel :=
  match vocab, unk_id with
  | some v, uid =>
    match Unigram.fromVocab v uid with
    | .ok m => .ok ⟨.Unigram m⟩
    | .error e => .error e
  | none, none => .ok ⟨.Unigram Unigram.default⟩
  | none, some _ => .error (.argError "`vocab` and `unk_id` must be both specified")

/-- tk `WordLevelBuilder` configuration. -/
structure WordLevelBuilder where
  vocab : Option Vocab := none
  unk_token : Option String := none
  deriving DecidableEq

/-- `WordLevel::builder()`. -/
def WordLevel.builder : WordLevelBuilder := {}

/-- Modelled from the spec: tk's `WordLevelBuilder::build` (not under
`src/`) — "both independently optional — a model may be built with no
vocabulary at all (empty model)", so build succeeds with the configured
fields. -/
def WordLevelBuilder.build (b : WordLevelBuilder) : Except RbErr RbModel :=
  .ok ⟨.WordLevel { vocab := b.vocab.getD [], unk_token := b.unk_token }⟩

/-- Embedding of `RbWordLevel::new` (models.rs lines 162-171). -/
def RbWordLevel.new (vocab : Option Vocab) (unk_token : Option String) :
    Except RbErr RbModel :=
  let builder := WordLevel.builder
  let builder :=
    match vocab with
    | some v => { builder with vocab := some v }
    | none => builder
  let builder :=
    match unk_token with
    | some u => { builder with unk_token := some u }
    | none => builder
  builder.build

/-- Embedding of `RbWordLevel::from_file` (models.rs lines 177-181), with
tk's `WordLevel::read_file` (not under `src/`) taken as a parameter over
the vocabulary file's content. -/
def RbWordLevel.from_file (read_file : String → Except RbErr Vocab)
    (vocab : String) (unk_token : Option String) : Except RbErr RbModel :=
  match read_file vocab with
  | .error e => .error e
  | .ok v => RbWordLevel.new (some v) unk_token

/-- tk `WordPieceBuilder` configuration. -/
structure WordPieceBuilder where
  vocab : Option Vocab := none
  unk_token : Option String := none
  max_input_chars_per_word : Option Nat := none
  continuing_subword_prefix : Option String := none
  deriving DecidableEq

/-- `WordPiece::builder()`. -/
def WordPiece.builder : WordPieceBuilder := {}

/-- tk builder setter `WordPieceBuilder::vocab`. -/
def WordPieceBuilder.setVocab (b : WordPieceBuilder) (v : Vocab) : WordPieceBuilder :=
  { b with vocab := some v }

/-- tk builder setter `WordPieceBuilder::unk_token`. -/
def WordPieceBuilder.setUnkToken (b : WordPieceBuilder) (s : String) : WordPieceBuilder :=
  { b with unk_token := some s }

/-- tk builder setter `WordPieceBuilder::max_input_chars_per_word`. -/
def WordPieceBuilder.setMaxInputChars (b : WordPieceBuilder) (n : Nat) : WordPieceBuilder :=
  { b with max_input_chars_per_word := some n }

/-- tk builder setter `WordPieceBuilder::continuing_subword_prefix`. -/
def WordPieceBuilder.setContinuingSubwordPre (b : WordPieceBuilder) (s : String) : WordPieceBuilder :=
  { b with continuing_subword_prefix := some s }

/-- Modelled from the spec: tk's `WordPieceBuilder::build` (not under
`src/`); defaults per the spec — a `"[UNK]"`-style fallback, a `"##"`-style
continuing-subword marker, and a hard `max_input_chars_per_word` limit
(engine default 100). -/
def WordPieceBuilder.build (b : WordPieceBuilder) : Except RbErr RbModel :=
  .ok ⟨.WordPiece {
    vocab := b.vocab.getD []
    unk_token := b.unk_token.getD "[UNK]"
    max_input_chars_per_word := b.max_input_chars_per_word.getD 100
    continuing_subword_prefix := b.continuing_subword_prefix.getD "##" }⟩

/-- Embedding of `RbWordPiece::with_builder` (models.rs lines 187-209),
threading the kwargs hash as in the BPE case. -/
def RbWordPiece.with_builder (builder : WordPieceBuilder) (kwargs : RHash) :
    Except RbErr RbModel × RHash :=
  match optStep builder kwargs "unk_token" RbValue.asString WordPieceBuilder.setUnkToken with
  | .error (e, k) => (.error e, k)
  | .ok (b, k) =>
    match optStep b k "max_input_chars_per_word" RbValue.asNat WordPieceBuilder.setMaxInputChars with
    | .error (e, k) => (.error e, k)
    | .ok (b, k) =>
      match optStep b k "continuing_subword_prefix" RbValue.asString WordPieceBuilder.setContinuingSubwordPre with
      | .error (e, k) => (.error e, k)
      | .ok (b, k) =>
        if !k.isEmpty then
          (.error (.argError "unknown keyword"), k)
        else
          (b.build, k)

/-- Embedding of `RbWordPiece::new` (models.rs lines 211-217). -/
def RbWordPiece.new (vocab : Option Vocab) (kwargs : RHash) :
    Except RbErr RbModel × RHash :=
  let builder := WordPiece.builder
  let builder :=
    match vocab with
    | some v => builder.setVocab v
    | none => builder
  RbWordPiece.with_builder builder kwargs

/-- Embedding of `RbWordPiece::from_file` (models.rs lines 219-223), with
tk's `WordPiece::read_file` taken as a parameter over the file content. -/
def RbWordPiece.from_file (read_file : String → Except RbErr Vocab)
    (vocab : String) (kwargs : RHash) : Except RbErr RbModel × RHash :=
  match read_file vocab with
  | .error e => (.error e, kwargs)
  | .ok v => RbWordPiece.new (some v) kwargs

/-- Spec-side definition of BPE file construction, following the spec's
words: "reads a vocabulary file and a merges file, parses both into
in-memory Vocabulary/Merge Table, then proceeds as in-memory construction"
with the same remaining arguments, propagating the parse error otherwise. -/
def RbBPE.from_file_spec (read_file : String → String → Except RbErr (Vocab × Merges))
    (vocab merges : String) (kwargs : RHash) : Except RbErr RbModel × RHash :=
  match read_file vocab merges with
  | .ok vm => RbBPE.new (some vm.1) (some vm.2) kwargs
  | .error e => (.error e, kwargs)

/-- Spec-side definition of WordLevel file construction: "File loading
parses a vocabulary file into the mapping form before delegating to the
same construction path". -/
def RbWordLevel.from_file_spec (read_file : String → Except RbErr Vocab)
    (vocab : String) (unk_token : Option String) : Except RbErr RbModel :=
  match read_file vocab with
  | .ok v => RbWordLevel.new (some v) unk_token
  | .error e => .error e

/-- Spec-side definition of WordPiece file construction: parse the
vocabulary file, then call the in-memory constructor with the same
remaining arguments. -/
def RbWordPiece.from_file_spec (read_file : String → Except RbErr Vocab)
    (vocab : String) (kwargs : RHash) : Except RbErr RbModel × RHash :=
  match read_file vocab with
  | .ok v => RbWordPiece.new (some v) kwargs
  | .error e => (.error e, kwargs)

/-- The recognized BPE option set (models.rs lines 74-102). -/
def bpeRecognizedKeys : List String :=
  ["cache_capacity", "dropout", "unk_token", "continuing_subword_prefix",
   "end_of_word_suffix", "fuse_unk"]

/-- The recognized WordPiece option set (models.rs lines 188-201). -/
def wpRecognizedKeys : List String :=
  ["unk_token", "max_input_chars_per_word", "continuing_subword_prefix"]

/-- All values stored under `key` are nil or convertible by `conv`. -/
def convOkAt {β : Type} (h : RHash) (key : String)
    (conv : RbValue → Except RbErr β) : Bool :=
  h.all (fun p => !(p.1 == key) || decide (p.2 = RbValue.nil) || isOkE (conv p.2))

/-- Every recognized BPE option present in the hash carries a value of the
type its `try_convert` expects (or nil). -/
def bpeWellTyped (h : RHash) : Bool :=
  convOkAt h "cache_capacity" RbValue.asNat &&
  convOkAt h "dropout" RbValue.asFloat &&
  convOkAt h "unk_token" RbValue.asString &&
  convOkAt h "continuing_subword_prefix" RbValue.asString &&
  convOkAt h "end_of_word_suffix" RbValue.asString &&
  convOkAt h "fuse_unk" RbValue.asBool

/-- Every recognized WordPiece option present in the hash carries a value
of the type its `try_convert` expects (or nil). -/
def wpWellTyped (h : RHash) : Bool :=
  convOkAt h "unk_token" RbValue.asString &&
  convOkAt h "max_input_chars_per_word" RbValue.asNat &&
  convOkAt h "continuing_subword_prefix" RbValue.asString

/-- The kwargs hash after every recognized BPE option has been deleted, in
source order. -/
def bpeFilteredHash (h : RHash) : RHash :=
  (((((h.filter (fun p => p.1 != "cache_capacity")).filter
    (fun p => p.1 != "dropout")).filter
    (fun p => p.1 != "unk_token")).filter
    (fun p => p.1 != "continuing_subword_prefix")).filter
    (fun p => p.1 != "end_of_word_suffix")).filter
    (fun p => p.1 != "fuse_unk")

/-- The kwargs hash after every recognized WordPiece option has been
deleted, in source order. -/
def wpFilteredHash (h : RHash) : RHash :=
  ((h.filter (fun p => p.1 != "unk_token")).filter
    (fun p => p.1 != "max_input_chars_per_word")).filter
    (fun p => p.1 != "continuing_subword_prefix")

/-- The empty BPE model produced by building the untouched builder. -/
def bpeEmptyModel : RbModel :=
  ⟨.BPE { vocab := [], merges := [], cache_capacity := 10000, dropout := none,
          unk_token := none, continuing_subword_prefix := none,
          end_of_word_suffix := none, fuse_unk := false }⟩

/-- A small concrete WordLevel model with a bijective vocabulary. -/
def wlExample : RbModel :=
  ⟨.WordLevel { vocab := [("a", 0), ("b", 1)], unk_token := none }⟩

/-- A small concrete BPE model with an unknown token configured. -/
def bpeExample : RbModel :=
  ⟨.BPE { vocab := [], merges := [], cache_capacity := 10000, dropout := none,
          unk_token := some "[UNK]", continuing_subword_prefix := none,
          end_of_word_suffix := none, fuse_unk := false }⟩

/-- A small concrete WordPiece model with an unknown token configured. -/
def wpExample : RbModel :=
  ⟨.WordPiece { vocab := [], unk_token := "[UNK]", max_input_chars_per_word := 100,
                continuing_subword_prefix := "##" }⟩

/-! ## Helper lemmas -/

lemma isOkE_iff {ε α : Type} {e : Except ε α} : isOkE e = true ↔ ∃ x, e = .ok x := by
  cases e <;> simp [isOkE]

lemma asNat_error {v : RbValue} {e : RbErr} (h : RbValue.asNat v = .error e) :
    e = .typeError := by
  cases v <;> first
    | exact Except.noConfusion h
    | (injection h with h1; exact h1.symm)

lemma asFloat_error {v : RbValue} {e : RbErr} (h : RbValue.asFloat v = .error e) :
    e = .typeError := by
  cases v <;> first
    | exact Except.noConfusion h
    | (injection h with h1; exact h1.symm)

lemma asString_error {v : RbValue} {e : RbErr} (h : RbValue.asString v = .error e) :
    e = .typeError := by
  cases v <;> first
    | exact Except.noConfusion h
    | (injection h with h1; exact h1.symm)

lemma asBool_error {v : RbValue} {e : RbErr} (h : RbValue.asBool v = .error e) :
    e = .typeError := by
  cases v <;> first
    | exact Except.noConfusion h
    | (injection h with h1; exact h1.symm)

lemma hasKey_filter_self (h : RHash) (key : String) :
    RHash.hasKey (h.filter (fun p => p.1 != key)) key = false := by
  simp only [RHash.hasKey]
  rw [List.any_eq_false]
  intro x hx
  have h2 := (List.mem_filter.mp hx).2
  simp only [bne_iff_ne, ne_eq] at h2
  simp only [beq_iff_eq]
  exact h2

lemma hasKey_filter_of_ne {h : RHash} {k key : String} (hne : k ≠ key)
    (hk : RHash.hasKey h k = true) :
    RHash.hasKey (h.filter (fun p => p.1 != key)) k = true := by
  simp only [RHash.hasKey, List.any_eq_true] at *
  obtain ⟨p, hp, hpk⟩ := hk
  refine ⟨p, List.mem_filter.mpr ⟨hp, ?_⟩, hpk⟩
  have hp1 : p.1 = k := by simpa using hpk
  simp only [bne_iff_ne, ne_eq, hp1]
  exact hne

lemma hasKey_filter_of_false {h : RHash} {k key : String}
    (hk : RHash.hasKey h k = false) :
    RHash.hasKey (h.filter (fun p => p.1 != key)) k = false := by
  simp only [RHash.hasKey] at *
  rw [List.any_eq_false] at *
  intro x hx
  exact hk x (List.mem_filter.mp hx).1

lemma isEmpty_false_of_hasKey {h : RHash} {k : String} (hk : h.hasKey k = true) :
    h.isEmpty = false := by
  cases h with
  | nil => simp [RHash.hasKey] at hk
  | cons a t => rfl

lemma all_filter_of_all {α : Type} {p q : α → Bool} {l : List α}
    (h : l.all p = true) : (l.filter q).all p = true := by
  rw [List.all_eq_true] at *
  intro x hx
  exact h x (List.mem_filter.mp hx).1

lemma convOkAt_filter (key2 : String) {β : Type} {h : RHash} {key : String}
    {conv : RbValue → Except RbErr β} (hc : convOkAt h key conv = true) :
    convOkAt (h.filter (fun p => p.1 != key2)) key conv = true :=
  all_filter_of_all hc

lemma optStep_ok_of_convOk {B β : Type} (b : B) (kwargs : RHash) (key : String)
    (conv : RbValue → Except RbErr β) (set : B → β → B)
    (hc : convOkAt kwargs key conv = true) :
    ∃ b', optStep b kwargs key conv set =
      .ok (b', kwargs.filter (fun p => p.1 != key)) := by
  unfold optStep RHash.deleteKey
  cases hf : kwargs.find? (fun p => p.1 == key) with
  | none => exact ⟨b, by simp [hf]⟩
  | some p =>
    have hmem := List.mem_of_find?_eq_some hf
    have hkey : (p.1 == key) = true := by simpa using List.find?_some hf
    have hok := (List.all_eq_true.mp hc) p hmem
    rw [hkey] at hok
    simp only [Bool.not_true, Bool.false_or, Bool.or_eq_true, decide_eq_true_eq] at hok
    by_cases hnil : p.2 = RbValue.nil
    · exact ⟨b, by simp [hf, hnil]⟩
    · have hconv : isOkE (conv p.2) = true := by
        rcases hok with h1 | h2
        · exact absurd h1 hnil
        · exact h2
      obtain ⟨x, hx⟩ := isOkE_iff.mp hconv
      exact ⟨set b x, by simp [hf, hnil, hx]⟩

lemma optStep_error_conv {B β : Type} {b : B} {kwargs : RHash} {key : String}
    {conv : RbValue → Except RbErr β} {set : B → β → B} {e : RbErr} {k : RHash}
    (h : optStep b kwargs key conv set = .error (e, k)) :
    ∃ v, conv v = .error e := by
  simp only [optStep, RHash.deleteKey] at h
  by_cases hnil :
      (((kwargs.find? (fun p => p.1 == key)).map Prod.snd).getD RbValue.nil) = RbValue.nil
  · rw [if_pos hnil] at h
    exact absurd h (by simp)
  · rw [if_neg hnil] at h
    rcases hc :
        conv (((kwargs.find? (fun p => p.1 == key)).map Prod.snd).getD RbValue.nil)
      with e2 | x
    · rw [hc] at h
      simp only [Except.error.injEq, Prod.mk.injEq] at h
      exact ⟨_, by rw [hc, h.1]⟩
    · rw [hc] at h
      exact absurd h (by simp)

lemma optStep_ok_hash {B β : Type} {b : B} {kwargs : RHash} {key : String}
    {conv : RbValue → Except RbErr β} {set : B → β → B} {b' : B} {k' : RHash}
    (h : optStep b kwargs key conv set = .ok (b', k')) :
    k' = kwargs.filter (fun p => p.1 != key) := by
  simp only [optStep, RHash.deleteKey] at h
  by_cases hnil :
      (((kwargs.find? (fun p => p.1 == key)).map Prod.snd).getD RbValue.nil) = RbValue.nil
  · rw [if_pos hnil] at h
    simp only [Except.ok.injEq, Prod.mk.injEq] at h
    exact h.2.symm
  · rw [if_neg hnil] at h
    rcases hc :
        conv (((kwargs.find? (fun p => p.1 == key)).map Prod.snd).getD RbValue.nil)
      with e2 | x
    · rw [hc] at h
      exact absurd h (by simp)
    · rw [hc] at h
      simp only [Except.ok.injEq, Prod.mk.injEq] at h
      exact h.2.symm

/-! ## Claim theorems -/

/-- C1 (corrected): the source raises no `ArgumentError` when only one of
`vocab`/`merges` is supplied.  This counterexample refutes the claim as
stated: supplying a vocab without merges succeeds (and yields the empty
model) instead of failing. -/
theorem claim_C1_counterexample :
    (RbBPE.new (some [("a", 0)]) none []).1 = .ok bpeEmptyModel := rfl

/-- C1 (amended): supplying `vocab` without `merges` (or vice versa) to
`RbBPE::new` does not fail; the lone component is silently ignored and
construction behaves exactly as if neither had been supplied, while
supplying neither succeeds and yields an empty model. -/
theorem claim_C1 (v : Option Vocab) (mg : Option Merges) (k : RHash)
    (h : v = none ∨ mg = none) :
    RbBPE.new v mg k = RbBPE.new none none k ∧
    (RbBPE.new none none []).1 = .ok bpeEmptyModel := by
  refine ⟨?_, rfl⟩
  rcases h with rfl | rfl
  · cases mg <;> rfl
  · cases v <;> rfl

/-- Witness for C1 at the concrete input of the counterexample. -/
theorem claim_C1_witness :
    RbBPE.new (some [("a", 0)]) none [] = RbBPE.new none none [] ∧
    (RbBPE.new none none []).1 = .ok bpeEmptyModel :=
  claim_C1 (some [("a", 0)]) none [] (Or.inr rfl)

/-- C2: `RbUnigram::new` with `unk_id` but no `vocab` fails with the
`ArgumentError` message from the source, and with neither argument it
succeeds with the default (empty) model. -/
theorem claim_C2 (u : Nat) :
    RbUnigram.new none (some u) =
      .error (.argError "`vocab` and `unk_id` must be both specified") ∧
    RbUnigram.new none none = .ok ⟨.Unigram Unigram.default⟩ :=
  ⟨rfl, rfl⟩

/-- C3: with a vocab supplied, an out-of-range `unk_id` makes
`RbUnigram::new` return an error at construction time (no model value is
produced), while an in-range `unk_id` succeeds. -/
theorem claim_C3 (v : List (String × ℚ)) (i : Nat) :
    (v.length ≤ i →
      RbUnigram.new (some v) (some i) =
        .error (.buildError "unk_id is not a valid index in vocab")) ∧
    (i < v.length →
      RbUnigram.new (some v) (some i) =
        .ok ⟨.Unigram { vocab := v, unk_id := some i }⟩) := by
  constructor
  · intro h
    simp only [RbUnigram.new, Unigram.fromVocab]
    rw [if_neg (by omega)]
  · intro h
    simp only [RbUnigram.new, Unigram.fromVocab]
    rw [if_pos h]

/-- Witness for C3 at the spec's own example inputs. -/
theorem claim_C3_witness :
    RbUnigram.new (some [("a", (-1 : ℚ)), ("b", -2)]) (some 2) =
      .error (.buildError "unk_id is not a valid index in vocab") ∧
    RbUnigram.new (some [("a", (-1 : ℚ)), ("b", -2)]) (some 0) =
      .ok ⟨.Unigram { vocab := [("a", -1), ("b", -2)], unk_id := some 0 }⟩ :=
  ⟨(claim_C3 _ 2).1 (by simp), (claim_C3 _ 0).2 (by simp)⟩

/-- C5: for BPE, WordLevel and WordPiece, constructing from files equals
first parsing the file(s) and then calling the in-memory constructor with
the same remaining arguments, for every parser: the source `from_file`
agrees with the spec-side two-step definition on success and on parse
failure alike. -/
theorem claim_C5 :
    (∀ (rf : String → String → Except RbErr (Vocab × Merges)) (v mg : String) (k : RHash),
      RbBPE.from_file rf v mg k = RbBPE.from_file_spec rf v mg k) ∧
    (∀ (rf : String → Except RbErr Vocab) (v : String) (u : Option String),
      RbWordLevel.from_file rf v u = RbWordLevel.from_file_spec rf v u) ∧
    (∀ (rf : String → Except RbErr Vocab) (v : String) (k : RHash),
      RbWordPiece.from_file rf v k = RbWordPiece.from_file_spec rf v k) := by
  refine ⟨?_, ?_, ?_⟩
  · intro rf v mg k
    cases h : rf v mg <;>
      simp [RbBPE.from_file, RbBPE.from_file_spec, h]
  · intro rf v u
    cases h : rf v <;>
      simp [RbWordLevel.from_file, RbWordLevel.from_file_spec, h]
  · intro rf v k
    cases h : rf v <;>
      simp [RbWordPiece.from_file, RbWordPiece.from_file_spec, h]

/-- C7: for every constructed model, `get_vocab_size` equals the number of
entries in `get_vocab`. -/
theorem claim_C7 (m : RbModel) : m.get_vocab_size = m.get_vocab.length := by
  obtain ⟨w⟩ := m
  cases w <;>
    simp [RbModel.get_vocab_size, RbModel.get_vocab, ModelWrapper.get_vocab_size,
      ModelWrapper.get_vocab, unigramVocabMap, List.length_map, List.enum_length]

/-- C8: `RbWordLevel::new` accepts `vocab` and `unk_token` independently in
any combination; in particular neither being supplied succeeds with the
empty model. -/
theorem claim_C8 (vocab : Option Vocab) (u : Option String) :
    RbWordLevel.new vocab u =
      .ok ⟨.WordLevel { vocab := vocab.getD [], unk_token := u }⟩ ∧
    RbWordLevel.new none none =
      .ok ⟨.WordLevel { vocab := [], unk_token := none }⟩ := by
  refine ⟨?_, rfl⟩
  cases vocab <;> cases u <;> rfl

/-- C9: `RbModel::bpe_unk_token` returns the BPE unknown token when the
active variant is BPE and panics via `unreachable!()` on every other
variant. -/
theorem claim_C9 (m : RbModel) :
    (∀ mo, m.model = .BPE mo → m.bpe_unk_token = .returned mo.unk_token) ∧
    ((∀ mo, m.model ≠ .BPE mo) →
      m.bpe_unk_token = .panicked "internal error: entered unreachable code") := by
  obtain ⟨w⟩ := m
  constructor
  · intro mo h
    subst h
    rfl
  · intro h
    cases w with
    | BPE mo => exact absurd rfl (h mo)
    | Unigram mo => rfl
    | WordLevel mo => rfl
    | WordPiece mo => rfl

/-- Witness for C9: a non-BPE model panics, a BPE model returns its
unknown token. -/
theorem claim_C9_witness :
    RbModel.bpe_unk_token wlExample =
      .panicked "internal error: entered unreachable code" ∧
    RbModel.bpe_unk_token bpeExample = .returned (some "[UNK]") := by
  constructor
  · exact (claim_C9 wlExample).2 (fun mo h => ModelWrapper.noConfusion h)
  · exact (claim_C9 bpeExample).1 _ rfl

lemma with_builder_bpe_cases (b : BpeBuilder) (kwargs : RHash) :
    (RbBPE.with_builder b kwargs).1 = .error RbErr.typeError ∨
    ((RbBPE.with_builder b kwargs).2 = bpeFilteredHash kwargs ∧
      ((bpeFilteredHash kwargs).isEmpty = false ∧
        (RbBPE.with_builder b kwargs).1 = .error (.argError "unknown keyword") ∨
       (bpeFilteredHash kwargs).isEmpty = true ∧
        ∃ mo, (RbBPE.with_builder b kwargs).1 = .ok mo)) := by
  simp only [RbBPE.with_builder, bpeFilteredHash]
  rcases h1 : optStep b kwargs "cache_capacity" RbValue.asNat BpeBuilder.setCacheCapacity
    with ⟨e1, k1⟩ | ⟨b1, k1⟩
  · obtain ⟨v, hv⟩ := optStep_error_conv h1
    simp only [h1]
    left
    rw [asNat_error hv]
  · have hk1 := optStep_ok_hash h1
    subst hk1
    simp only [h1]
    rcases h2 : optStep b1 (kwargs.filter fun p => p.1 != "cache_capacity") "dropout"
        RbValue.asFloat BpeBuilder.setDropout
      with ⟨e2, k2⟩ | ⟨b2, k2⟩
    · obtain ⟨v, hv⟩ := optStep_error_conv h2
      simp only [h2]
      left
      rw [asFloat_error hv]
    · have hk2 := optStep_ok_hash h2
      subst hk2
      simp only [h2]
      rcases h3 : optStep b2 ((kwargs.filter fun p => p.1 != "cache_capacity").filter
          fun p => p.1 != "dropout") "unk_token" RbValue.asString BpeBuilder.setUnkToken
        with ⟨e3, k3⟩ | ⟨b3, k3⟩
      · obtain ⟨v, hv⟩ := optStep_error_conv h3
        simp only [h3]
        left
        rw [asString_error hv]
      · have hk3 := optStep_ok_hash h3
        subst hk3
        simp only [h3]
        rcases h4 : optStep b3 (((kwargs.filter fun p => p.1 != "cache_capacity").filter
            fun p => p.1 != "dropout").filter fun p => p.1 != "unk_token")
            "continuing_subword_prefix" RbValue.asString BpeBuilder.setContinuingSubwordPre
          with ⟨e4, k4⟩ | ⟨b4, k4⟩
        · obtain ⟨v, hv⟩ := optStep_error_conv h4
          simp only [h4]
          left
          rw [asString_error hv]
        · have hk4 := optStep_ok_hash h4
          subst hk4
          simp only [h4]
          rcases h5 : optStep b4 ((((kwargs.filter fun p => p.1 != "cache_capacity").filter
              fun p => p.1 != "dropout").filter fun p => p.1 != "unk_token").filter
              fun p => p.1 != "continuing_subword_prefix")
              "end_of_word_suffix" RbValue.asString BpeBuilder.setEndOfWordSuffix
            with ⟨e5, k5⟩ | ⟨b5, k5⟩
          · obtain ⟨v, hv⟩ := optStep_error_conv h5
            simp only [h5]
            left
            rw [asString_error hv]
          · have hk5 := optStep_ok_hash h5
            subst hk5
            simp only [h5]
            rcases h6 : optStep b5 (((((kwargs.filter fun p => p.1 != "cache_capacity").filter
                fun p => p.1 != "dropout").filter fun p => p.1 != "unk_token").filter
                fun p => p.1 != "continuing_subword_prefix").filter
                fun p => p.1 != "end_of_word_suffix")
                "fuse_unk" RbValue.asBool BpeBuilder.setFuseUnk
              with ⟨e6, k6⟩ | ⟨b6, k6⟩
            · obtain ⟨v, hv⟩ := optStep_error_conv h6
              simp only [h6]
              left
              rw [asBool_error hv]
            · have hk6 := optStep_ok_hash h6
              subst hk6
              simp only [h6]
              split
              · rename_i hE
                refine Or.inr ⟨rfl, Or.inl ⟨?_, rfl⟩⟩
                simpa using hE
              · rename_i hE
                refine Or.inr ⟨rfl, Or.inr ⟨?_, ⟨_, rfl⟩⟩⟩
                simpa using hE

lemma with_builder_wp_cases (b : WordPieceBuilder) (kwargs : RHash) :
    (RbWordPiece.with_builder b kwargs).1 = .error RbErr.typeError ∨
    ((RbWordPiece.with_builder b kwargs).2 = wpFilteredHash kwargs ∧
      ((wpFilteredHash kwargs).isEmpty = false ∧
        (RbWordPiece.with_builder b kwargs).1 = .error (.argError "unknown keyword") ∨
       (wpFilteredHash kwargs).isEmpty = true ∧
        ∃ mo, (RbWordPiece.with_builder b kwargs).1 = .ok mo)) := by
  simp only [RbWordPiece.with_builder, wpFilteredHash]
  rcases h1 : optStep b kwargs "unk_token" RbValue.asString WordPieceBuilder.setUnkToken
    with ⟨e1, k1⟩ | ⟨b1, k1⟩
  · obtain ⟨v, hv⟩ := optStep_error_conv h1
    simp only [h1]
    left
    rw [asString_error hv]
  · have hk1 := optStep_ok_hash h1
    subst hk1
    simp only [h1]
    rcases h2 : optStep b1 (kwargs.filter fun p => p.1 != "unk_token")
        "max_input_chars_per_word" RbValue.asNat WordPieceBuilder.setMaxInputChars
      with ⟨e2, k2⟩ | ⟨b2, k2⟩
    · obtain ⟨v, hv⟩ := optStep_error_conv h2
      simp only [h2]
      left
      rw [asNat_error hv]
    · have hk2 := optStep_ok_hash h2
      subst hk2
      simp only [h2]
      rcases h3 : optStep b2 ((kwargs.filter fun p => p.1 != "unk_token").filter
          fun p => p.1 != "max_input_chars_per_word")
          "continuing_subword_prefix" RbValue.asString WordPieceBuilder.setContinuingSubwordPre
        with ⟨e3, k3⟩ | ⟨b3, k3⟩
      · obtain ⟨v, hv⟩ := optStep_error_conv h3
        simp only [h3]
        left
        rw [asString_error hv]
      · have hk3 := optStep_ok_hash h3
        subst hk3
        simp only [h3]
        split
        · rename_i hE
          refine Or.inr ⟨rfl, Or.inl ⟨?_, rfl⟩⟩
          simpa using hE
        · rename_i hE
          refine Or.inr ⟨rfl, Or.inr ⟨?_, ⟨_, rfl⟩⟩⟩
          simpa using hE

lemma with_builder_bpe_no_typeError (b : BpeBuilder) (kwargs : RHash)
    (hwt : bpeWellTyped kwargs = true) :
    (RbBPE.with_builder b kwargs).1 ≠ .error RbErr.typeError := by
  simp only [bpeWellTyped, Bool.and_eq_true] at hwt
  obtain ⟨⟨⟨⟨⟨hc1, hc2⟩, hc3⟩, hc4⟩, hc5⟩, hc6⟩ := hwt
  obtain ⟨b1, h1⟩ := optStep_ok_of_convOk b kwargs "cache_capacity" RbValue.asNat
    BpeBuilder.setCacheCapacity hc1
  obtain ⟨b2, h2⟩ := optStep_ok_of_convOk b1 _ "dropout" RbValue.asFloat
    BpeBuilder.setDropout (convOkAt_filter "cache_capacity" hc2)
  obtain ⟨b3, h3⟩ := optStep_ok_of_convOk b2 _ "unk_token" RbValue.asString
    BpeBuilder.setUnkToken
    (convOkAt_filter "dropout" (convOkAt_filter "cache_capacity" hc3))
  obtain ⟨b4, h4⟩ := optStep_ok_of_convOk b3 _ "continuing_subword_prefix" RbValue.asString
    BpeBuilder.setContinuingSubwordPre
    (convOkAt_filter "unk_token" (convOkAt_filter "dropout"
      (convOkAt_filter "cache_capacity" hc4)))
  obtain ⟨b5, h5⟩ := optStep_ok_of_convOk b4 _ "end_of_word_suffix" RbValue.asString
    BpeBuilder.setEndOfWordSuffix
    (convOkAt_filter "continuing_subword_prefix" (convOkAt_filter "unk_token"
      (convOkAt_filter "dropout" (convOkAt_filter "cache_capacity" hc5))))
  obtain ⟨b6, h6⟩ := optStep_ok_of_convOk b5 _ "fuse_unk" RbValue.asBool
    BpeBuilder.setFuseUnk
    (convOkAt_filter "end_of_word_suffix" (convOkAt_filter "continuing_subword_prefix"
      (convOkAt_filter "unk_token" (convOkAt_filter "dropout"
        (convOkAt_filter "cache_capacity" hc6)))))
  simp only [RbBPE.with_builder, h1, h2, h3, h4, h5, h6]
  split
  · simp
  · simp [BpeBuilder.build]

lemma with_builder_wp_no_typeError (b : WordPieceBuilder) (kwargs : RHash)
    (hwt : wpWellTyped kwargs = true) :
    (RbWordPiece.with_builder b kwargs).1 ≠ .error RbErr.typeError := by
  simp only [wpWellTyped, Bool.and_eq_true] at hwt
  obtain ⟨⟨hc1, hc2⟩, hc3⟩ := hwt
  obtain ⟨b1, h1⟩ := optStep_ok_of_convOk b kwargs "unk_token" RbValue.asString
    WordPieceBuilder.setUnkToken hc1
  obtain ⟨b2, h2⟩ := optStep_ok_of_convOk b1 _ "max_input_chars_per_word" RbValue.asNat
    WordPieceBuilder.setMaxInputChars (convOkAt_filter "unk_token" hc2)
  obtain ⟨b3, h3⟩ := optStep_ok_of_convOk b2 _ "continuing_subword_prefix" RbValue.asString
    WordPieceBuilder.setContinuingSubwordPre
    (convOkAt_filter "max_input_chars_per_word" (convOkAt_filter "unk_token" hc3))
  simp only [RbWordPiece.with_builder, h1, h2, h3]
  split
  · simp
  · simp [WordPieceBuilder.build]

lemma vocabLookup_of_mem {v : Vocab} (hk : (v.map Prod.fst).Nodup) {t : String} {i : Nat}
    (hm : (t, i) ∈ v) : vocabLookup v t = some i := by
  induction v with
  | nil => cases hm
  | cons a tl ih =>
    rw [List.map_cons, List.nodup_cons] at hk
    rcases List.mem_cons.mp hm with heq | hm2
    · rw [← heq]
      unfold vocabLookup
      rw [List.find?_cons_of_pos _ (by simp)]
      rfl
    · have hne : (a.1 == t) = false := by
        rw [beq_eq_false_iff_ne]
        intro he
        apply hk.1
        rw [he]
        exact List.mem_map.mpr ⟨(t, i), hm2, rfl⟩
      unfold vocabLookup at ih ⊢
      rw [List.find?_cons_of_neg _ (by simp [hne])]
      exact ih hk.2 hm2

lemma vocabRLookup_of_mem {v : Vocab} (hi : (v.map Prod.snd).Nodup) {t : String} {i : Nat}
    (hm : (t, i) ∈ v) : vocabRLookup v i = some t := by
  induction v with
  | nil => cases hm
  | cons a tl ih =>
    rw [List.map_cons, List.nodup_cons] at hi
    rcases List.mem_cons.mp hm with heq | hm2
    · rw [← heq]
      unfold vocabRLookup
      rw [List.find?_cons_of_pos _ (by simp)]
      rfl
    · have hne : (a.2 == i) = false := by
        rw [beq_eq_false_iff_ne]
        intro he
        apply hi.1
        rw [he]
        exact List.mem_map.mpr ⟨(t, i), hm2, rfl⟩
      unfold vocabRLookup at ih ⊢
      rw [List.find?_cons_of_neg _ (by simp [hne])]
      exact ih hi.2 hm2

/-- C4: an option key outside the recognized set makes `with_builder` fail
for BPE and WordPiece: the result is always an error (so no model is
produced), and whenever the recognized options that are present carry
convertible values the error is precisely the "unknown keyword"
`ArgumentError`. -/
theorem claim_C4 :
    (∀ (b : BpeBuilder) (kwargs : RHash) (k : String),
      RHash.hasKey kwargs k = true → k ∉ bpeRecognizedKeys →
      (∃ e, (RbBPE.with_builder b kwargs).1 = .error e) ∧
      (bpeWellTyped kwargs = true →
        (RbBPE.with_builder b kwargs).1 = .error (.argError "unknown keyword"))) ∧
    (∀ (b : WordPieceBuilder) (kwargs : RHash) (k : String),
      RHash.hasKey kwargs k = true → k ∉ wpRecognizedKeys →
      (∃ e, (RbWordPiece.with_builder b kwargs).1 = .error e) ∧
      (wpWellTyped kwargs = true →
        (RbWordPiece.with_builder b kwargs).1 = .error (.argError "unknown keyword"))) := by
  constructor
  · intro b kwargs k hk hnr
    simp [bpeRecognizedKeys] at hnr
    obtain ⟨n1, n2, n3, n4, n5, n6⟩ := hnr
    have hk6 : RHash.hasKey (bpeFilteredHash kwargs) k = true := by
      simp only [bpeFilteredHash]
      exact hasKey_filter_of_ne n6 (hasKey_filter_of_ne n5 (hasKey_filter_of_ne n4
        (hasKey_filter_of_ne n3 (hasKey_filter_of_ne n2 (hasKey_filter_of_ne n1 hk)))))
    have hne := isEmpty_false_of_hasKey hk6
    rcases with_builder_bpe_cases b kwargs with hte | ⟨hhash, hres⟩
    · exact ⟨⟨_, hte⟩, fun hwt => absurd hte (with_builder_bpe_no_typeError b kwargs hwt)⟩
    · rcases hres with ⟨hE, hres⟩ | ⟨hE, hres⟩
      · exact ⟨⟨_, hres⟩, fun _ => hres⟩
      · rw [hE] at hne
        exact Bool.noConfusion hne
  · intro b kwargs k hk hnr
    simp [wpRecognizedKeys] at hnr
    obtain ⟨n1, n2, n3⟩ := hnr
    have hk3 : RHash.hasKey (wpFilteredHash kwargs) k = true := by
      simp only [wpFilteredHash]
      exact hasKey_filter_of_ne n3 (hasKey_filter_of_ne n2 (hasKey_filter_of_ne n1 hk))
    have hne := isEmpty_false_of_hasKey hk3
    rcases with_builder_wp_cases b kwargs with hte | ⟨hhash, hres⟩
    · exact ⟨⟨_, hte⟩, fun hwt => absurd hte (with_builder_wp_no_typeError b kwargs hwt)⟩
    · rcases hres with ⟨hE, hres⟩ | ⟨hE, hres⟩
      · exact ⟨⟨_, hres⟩, fun _ => hres⟩
      · rw [hE] at hne
        exact Bool.noConfusion hne

/-- Witness for C4 at a concrete unknown keyword. -/
theorem claim_C4_witness :
    (RbBPE.with_builder BPE.builder [("bogus", RbValue.nat 1)]).1 =
      .error (.argError "unknown keyword") ∧
    (RbWordPiece.with_builder WordPiece.builder [("bogus", RbValue.nat 1)]).1 =
      .error (.argError "unknown keyword") := by
  constructor
  · exact (claim_C4.1 BPE.builder [("bogus", RbValue.nat 1)] "bogus"
      (by decide) (by decide)).2 (by decide)
  · exact (claim_C4.2 WordPiece.builder [("bogus", RbValue.nat 1)] "bogus"
      (by decide) (by decide)).2 (by decide)

/-- C6: on the vocabulary the two lookups are mutually inverse: for every
token of `get_vocab` the id it maps to maps back to it, and for every id
appearing in `get_vocab` the token it maps to maps back to it (under the
spec's invariant that ids are unique; token keys are unique because the
vocabulary is a hash map). -/
theorem claim_C6 (m : RbModel)
    (hk : (m.get_vocab.map Prod.fst).Nodup)
    (hi : (m.get_vocab.map Prod.snd).Nodup) :
    (∀ t ∈ m.get_vocab.map Prod.fst,
      (m.token_to_id t).bind (fun i => m.id_to_token i) = some t) ∧
    (∀ i ∈ m.get_vocab.map Prod.snd,
      (m.id_to_token i).bind (fun t => m.token_to_id t) = some i) := by
  constructor
  · intro t ht
    obtain ⟨p, hp, hpt⟩ := List.mem_map.mp ht
    subst hpt
    have hm2 : (p.1, p.2) ∈ m.get_vocab := by simpa using hp
    have h1 := vocabLookup_of_mem hk hm2
    have h2 := vocabRLookup_of_mem hi hm2
    simp only [RbModel.get_vocab] at h1 h2
    simp only [RbModel.token_to_id, ModelWrapper.token_to_id, RbModel.id_to_token,
      ModelWrapper.id_to_token]
    rw [h1, Option.some_bind]
    exact h2
  · intro i hi2
    obtain ⟨p, hp, hpi⟩ := List.mem_map.mp hi2
    subst hpi
    have hm2 : (p.1, p.2) ∈ m.get_vocab := by simpa using hp
    have h1 := vocabLookup_of_mem hk hm2
    have h2 := vocabRLookup_of_mem hi hm2
    simp only [RbModel.get_vocab] at h1 h2
    simp only [RbModel.token_to_id, ModelWrapper.token_to_id, RbModel.id_to_token,
      ModelWrapper.id_to_token]
    rw [h2, Option.some_bind]
    exact h1

/-- Witness for C6 on a concrete WordLevel model. -/
theorem claim_C6_witness :
    (RbModel.token_to_id wlExample "a").bind
      (fun i => RbModel.id_to_token wlExample i) = some "a" ∧
    (RbModel.id_to_token wlExample 1).bind
      (fun t => RbModel.token_to_id wlExample t) = some 1 := by
  have h := claim_C6 wlExample (by decide) (by decide)
  exact ⟨h.1 "a" (by decide), h.2 1 (by decide)⟩

/-- C10: BPE and WordPiece construction mutate the caller's kwargs hash in
place: whenever `with_builder` returns successfully or with the
unknown-keyword `ArgumentError`, the final state of the hash no longer
contains any recognized option key. -/
theorem claim_C10 :
    (∀ (b : BpeBuilder) (kwargs : RHash),
      ((∃ mo, (RbBPE.with_builder b kwargs).1 = .ok mo) ∨
        (RbBPE.with_builder b kwargs).1 = .error (.argError "unknown keyword")) →
      ∀ key ∈ bpeRecognizedKeys,
        RHash.hasKey (RbBPE.with_builder b kwargs).2 key = false) ∧
    (∀ (b : WordPieceBuilder) (kwargs : RHash),
      ((∃ mo, (RbWordPiece.with_builder b kwargs).1 = .ok mo) ∨
        (RbWordPiece.with_builder b kwargs).1 = .error (.argError "unknown keyword")) →
      ∀ key ∈ wpRecognizedKeys,
        RHash.hasKey (RbWordPiece.with_builder b kwargs).2 key = false) := by
  constructor
  · intro b kwargs H key hkey
    rcases with_builder_bpe_cases b kwargs with hte | ⟨hhash, _⟩
    · rcases H with ⟨mo, hmo⟩ | hae
      · exact absurd (hte.symm.trans hmo) (by simp)
      · exact absurd (hte.symm.trans hae) (by simp)
    · rw [hhash]
      simp only [bpeFilteredHash]
      simp [bpeRecognizedKeys] at hkey
      rcases hkey with rfl | rfl | rfl | rfl | rfl | rfl
      · exact hasKey_filter_of_false (hasKey_filter_of_false (hasKey_filter_of_false
          (hasKey_filter_of_false (hasKey_filter_of_false (hasKey_filter_self _ _)))))
      · exact hasKey_filter_of_false (hasKey_filter_of_false (hasKey_filter_of_false
          (hasKey_filter_of_false (hasKey_filter_self _ _))))
      · exact hasKey_filter_of_false (hasKey_filter_of_false (hasKey_filter_of_false
          (hasKey_filter_self _ _)))
      · exact hasKey_filter_of_false (hasKey_filter_of_false (hasKey_filter_self _ _))
      · exact hasKey_filter_of_false (hasKey_filter_self _ _)
      · exact hasKey_filter_self _ _
  · intro b kwargs H key hkey
    rcases with_builder_wp_cases b kwargs with hte | ⟨hhash, _⟩
    · rcases H with ⟨mo, hmo⟩ | hae
      · exact absurd (hte.symm.trans hmo) (by simp)
      · exact absurd (hte.symm.trans hae) (by simp)
    · rw [hhash]
      simp only [wpFilteredHash]
      simp [wpRecognizedKeys] at hkey
      rcases hkey with rfl | rfl | rfl
      · exact hasKey_filter_of_false (hasKey_filter_of_false (hasKey_filter_self _ _))
      · exact hasKey_filter_of_false (hasKey_filter_self _ _)
      · exact hasKey_filter_self _ _

/-- Witness for C10 on a concrete hash holding one recognized key. -/
theorem claim_C10_witness :
    RHash.hasKey (RbBPE.with_builder BPE.builder
      [("unk_token", RbValue.str "[UNK]")]).2 "unk_token" = false ∧
    RHash.hasKey (RbWordPiece.with_builder WordPiece.builder
      [("unk_token", RbValue.str "[UNK]")]).2 "unk_token" = false := by
  constructor
  · exact claim_C10.1 BPE.builder [("unk_token", RbValue.str "[UNK]")]
      (Or.inl ⟨bpeExample, rfl⟩) "unk_token" (by decide)
  · exact claim_C10.2 WordPiece.builder [("unk_token", RbValue.str "[UNK]")]
      (Or.inl ⟨wpExample, rfl⟩) "unk_token" (by decide)

end TokenizersRuby
